import Mathlib

/-!
Shallow embedding of the go-graph repository's mixed-matrix graph store
(`src/graph/MixedMatrix.go`) and of the directed-graph arcs filter
(`DirectedGraphArcsFilter`).

Modelling conventions:
* `VertexId` (Go `type VertexId uint`, compared with `<` in the source) is `Nat`.
* Go panics are modelled as explicit error values.  Every mutating method
  returns the post-state together with `Option GraphError` (`none` = success);
  the post-state is returned even on failure, because a Go panic does not roll
  back mutations already performed on the receiver.  Query methods return the
  post-state together with `Except GraphError result`.
* The Go map `VertexIds map[VertexId]int` is an association list; the source
  only ever inserts keys that are absent, so cons-insertion with `List.lookup`
  is faithful and `len(map)` is the list length.
* `edgesCnt`/`arcsCnt` are Go `int`, modelled as `Int` so that decrements are
  exact.  Counts never approach 2^63 here, so overflow is immaterial.
* An out-of-range Go slice access (`gr.nodes[conn]`) is a runtime panic,
  modelled by `GraphError.indexOutOfRange`.
-/

namespace GoGraph

abbrev VertexId := Nat

abbrev NodeId := Nat

/-- Connection states of a slot (`MixedConnectionType` with constants
`CT_NONE`, `CT_UNDIRECTED`, `CT_DIRECTED`, `CT_DIRECTED_REVERSED`). -/
inductive MixedConnectionType where
  | CT_NONE
  | CT_UNDIRECTED
  | CT_DIRECTED
  | CT_DIRECTED_REVERSED
deriving DecidableEq, Repr

export MixedConnectionType (CT_NONE CT_UNDIRECTED CT_DIRECTED CT_DIRECTED_REVERSED)

/-- The distinct panic sites of the source, as error values. -/
inductive GraphError where
  | equalNodes              -- "Equal nodes."
  | firstNodeNotExist       -- "First node doesn't exist in graph"
  | secondNodeNotExist      -- "Second node doesn't exist in graph"
  | notEnoughSpaceTwo       -- "Not enough space to create two new nodes."
  | notEnoughSpaceOne       -- "Not enough space to create new node."
  | duplicateConnection     -- "Duplicate edge."
  | edgeNotExists           -- "Edge doesn't exists."
  | arcNotExists            -- "Arc doesn't exists."
  | nodeAlreadyExists       -- "Node already exists."
  | noSpaceForNode          -- "Not enough space to add new node"
  | indexOutOfRange         -- Go runtime panic: slice index out of range
deriving DecidableEq, Repr

/-- The `MixedMatrix` struct. -/
structure MixedMatrix where
  nodes : List MixedConnectionType
  size : Nat
  VertexIds : List (VertexId × Nat)
  edgesCnt : Int
  arcsCnt : Int
deriving DecidableEq, Repr

/-- `NewMixedMatrix`: allocates `size*(size-1)/2` slots, all `CT_NONE`.
(The source panics when `size <= 0`; over `Nat` only `size = 0` is
degenerate, and reachability below always requires `0 < size`.) -/
def NewMixedMatrix (size : Nat) : MixedMatrix :=
  { nodes := List.replicate (size * (size - 1) / 2) CT_NONE
    size := size
    VertexIds := []
    edgesCnt := 0
    arcsCnt := 0 }

/-- The packed upper-triangle slot formula of `getConnectionId`:
`connId := id1*(gr.size-1) + id2 - 1 - id1*(id1+1)/2` (after the swap
establishing `id1 < id2`).  On every input the source reaches
(`id1 < id2`, `id1 < size`), the Go `int` computation never goes negative,
so `Nat` subtraction agrees with it. -/
def connSlot (size id1 id2 : Nat) : Nat :=
  id1 * (size - 1) + id2 - 1 - id1 * (id1 + 1) / 2

/-- Vertex-creating tail of `getConnectionId`: inserts whichever of the two
nodes is missing (first argument first, each receiving the current map
length as its internal index — note the second lookup result predates the
first insertion, which is sound because the two ids differ), then swaps the
internal ids into ascending order (written here as `min`/`max`, exactly the
effect of Go's `if id1 > id2 { id1, id2 = id2, id1 }`) and applies the
triangular formula. -/
def gcidInsert (gr : MixedMatrix) (node1 node2 : VertexId) (o1 o2 : Option Nat) :
    MixedMatrix × Except GraphError Nat :=
  let p1 : Nat × List (VertexId × Nat) :=
    match o1 with
    | some i => (i, gr.VertexIds)
    | none => (gr.VertexIds.length, (node1, gr.VertexIds.length) :: gr.VertexIds)
  let p2 : Nat × List (VertexId × Nat) :=
    match o2 with
    | some i => (i, p1.2)
    | none => (p1.2.length, (node2, p1.2.length) :: p1.2)
  ({ gr with VertexIds := p2.2 },
    Except.ok (connSlot gr.size (min p1.1 p2.1) (max p1.1 p2.1)))

/-- The capacity-check block of `getConnectionId`, entered only when at least
one node is missing (`!node1Exist || !node2Exist`).  The source then tests
`node1Exist && node2Exist` — necessarily false at this point — so the
two-node capacity check is dead code and only the one-node check
(`gr.size - len(gr.VertexIds) < 1`) ever runs, even when both nodes are
missing.  The dead branch is kept verbatim. -/
def gcidCreate (gr : MixedMatrix) (node1 node2 : VertexId) (o1 o2 : Option Nat) :
    MixedMatrix × Except GraphError Nat :=
  if o1.isSome && o2.isSome then
    if gr.size - gr.VertexIds.length < 2 then (gr, Except.error GraphError.notEnoughSpaceTwo)
    else gcidInsert gr node1 node2 o1 o2
  else
    if gr.size - gr.VertexIds.length < 1 then (gr, Except.error GraphError.notEnoughSpaceOne)
    else gcidInsert gr node1 node2 o1 o2

/-- `getConnectionId(node1, node2, create)`: the shared indexing routine.
Checks `node1 == node2` first; when both nodes are mapped no capacity check
runs and the state is untouched; when `create` is false a missing first
(then second) node is an error; otherwise control passes to the
creation path. -/
def getConnectionId (gr : MixedMatrix) (node1 node2 : VertexId) (create : Bool) :
    MixedMatrix × Except GraphError Nat :=
  if node1 = node2 then (gr, Except.error GraphError.equalNodes)
  else
    match gr.VertexIds.lookup node1, gr.VertexIds.lookup node2 with
    | some id1, some id2 =>
        (gr, Except.ok (connSlot gr.size (min id1 id2) (max id1 id2)))
    | none, o2 =>
        if create then gcidCreate gr node1 node2 none o2
        else (gr, Except.error GraphError.firstNodeNotExist)
    | some id1, none =>
        if create then gcidCreate gr node1 node2 (some id1) none
        else (gr, Except.error GraphError.secondNodeNotExist)

/-- `AddNode`: duplicate check, then capacity check, then insert with the
next internal index `len(gr.VertexIds)`. -/
def AddNode (gr : MixedMatrix) (node : VertexId) : MixedMatrix × Option GraphError :=
  if (gr.VertexIds.lookup node).isSome then (gr, some GraphError.nodeAlreadyExists)
  else if gr.VertexIds.length = gr.size then (gr, some GraphError.noSpaceForNode)
  else ({ gr with VertexIds := (node, gr.VertexIds.length) :: gr.VertexIds }, none)

/-- `Order`: number of mapped vertices. -/
def Order (gr : MixedMatrix) : Nat := gr.VertexIds.length

/-- `AddEdge`: slot with creation allowed; duplicate if the slot is not
`CT_NONE`; otherwise set `CT_UNDIRECTED` and increment `edgesCnt`. -/
def AddEdge (gr : MixedMatrix) (node1 node2 : VertexId) : MixedMatrix × Option GraphError :=
  match getConnectionId gr node1 node2 true with
  | (g1, Except.error e) => (g1, some e)
  | (g1, Except.ok conn) =>
    match g1.nodes.get? conn with
    | none => (g1, some GraphError.indexOutOfRange)
    | some t =>
      if t ≠ CT_NONE then (g1, some GraphError.duplicateConnection)
      else ({ g1 with nodes := g1.nodes.set conn CT_UNDIRECTED,
                      edgesCnt := g1.edgesCnt + 1 }, none)

/-- `RemoveEdge`: the source calls `getConnectionId(node1, node2, true)` —
creation *allowed* — then fails unless the slot is `CT_UNDIRECTED`;
otherwise clears it and decrements `edgesCnt`. -/
def RemoveEdge (gr : MixedMatrix) (node1 node2 : VertexId) : MixedMatrix × Option GraphError :=
  match getConnectionId gr node1 node2 true with
  | (g1, Except.error e) => (g1, some e)
  | (g1, Except.ok conn) =>
    match g1.nodes.get? conn with
    | none => (g1, some GraphError.indexOutOfRange)
    | some t =>
      if t ≠ CT_UNDIRECTED then (g1, some GraphError.edgeNotExists)
      else ({ g1 with nodes := g1.nodes.set conn CT_NONE,
                      edgesCnt := g1.edgesCnt - 1 }, none)

/-- `EdgesCnt`. -/
def EdgesCnt (gr : MixedMatrix) : Int := gr.edgesCnt

/-- `CheckEdge`: returns `false` (no error) on equal ids, else reads the slot
without creation and compares with `CT_UNDIRECTED`. -/
def CheckEdge (gr : MixedMatrix) (node1 node2 : VertexId) :
    MixedMatrix × Except GraphError Bool :=
  if node1 = node2 then (gr, Except.ok false)
  else
    match getConnectionId gr node1 node2 false with
    | (g1, Except.error e) => (g1, Except.error e)
    | (g1, Except.ok conn) =>
      match g1.nodes.get? conn with
      | none => (g1, Except.error GraphError.indexOutOfRange)
      | some t => (g1, Except.ok (decide (t = CT_UNDIRECTED)))

/-- `AddArc`: slot with creation allowed; duplicate if occupied; stores
`CT_DIRECTED` when `tail < head` (comparison of the *vertex-id values*, as
in the source) and `CT_DIRECTED_REVERSED` otherwise; increments `arcsCnt`. -/
def AddArc (gr : MixedMatrix) (tail head : VertexId) : MixedMatrix × Option GraphError :=
  match getConnectionId gr tail head true with
  | (g1, Except.error e) => (g1, some e)
  | (g1, Except.ok conn) =>
    match g1.nodes.get? conn with
    | none => (g1, some GraphError.indexOutOfRange)
    | some t =>
      if t ≠ CT_NONE then (g1, some GraphError.duplicateConnection)
      else
        ({ g1 with nodes := g1.nodes.set conn
                      (if tail < head then CT_DIRECTED else CT_DIRECTED_REVERSED),
                   arcsCnt := g1.arcsCnt + 1 }, none)

/-- `RemoveArc`: the source calls `getConnectionId(tail, head, true)` —
creation *allowed* — derives the expected stored type from `tail < head`
(vertex-id values), fails unless the slot matches, else clears it. -/
def RemoveArc (gr : MixedMatrix) (tail head : VertexId) : MixedMatrix × Option GraphError :=
  match getConnectionId gr tail head true with
  | (g1, Except.error e) => (g1, some e)
  | (g1, Except.ok conn) =>
    match g1.nodes.get? conn with
    | none => (g1, some GraphError.indexOutOfRange)
    | some t =>
      if t ≠ (if tail < head then CT_DIRECTED else CT_DIRECTED_REVERSED) then
        (g1, some GraphError.arcNotExists)
      else ({ g1 with nodes := g1.nodes.set conn CT_NONE,
                      arcsCnt := g1.arcsCnt - 1 }, none)

/-- `ArcsCnt`. -/
def ArcsCnt (gr : MixedMatrix) : Int := gr.arcsCnt

/-- `CheckArc`: expected type from `tail < head` (vertex-id values), then
reads the slot without creation and compares. -/
def CheckArc (gr : MixedMatrix) (tail head : VertexId) :
    MixedMatrix × Except GraphError Bool :=
  match getConnectionId gr tail head false with
  | (g1, Except.error e) => (g1, Except.error e)
  | (g1, Except.ok conn) =>
    match g1.nodes.get? conn with
    | none => (g1, Except.error GraphError.indexOutOfRange)
    | some t =>
      (g1, Except.ok (decide (t = (if tail < head then CT_DIRECTED else CT_DIRECTED_REVERSED))))

/-- `CheckEdgeType`: reads the slot without creation and returns its stored
type, except that a stored `CT_DIRECTED` queried with `tail > head` is
reported as `CT_DIRECTED_REVERSED`.  (A stored `CT_DIRECTED_REVERSED` is
returned unchanged whatever the query orientation.) -/
def CheckEdgeType (gr : MixedMatrix) (tail head : VertexId) :
    MixedMatrix × Except GraphError MixedConnectionType :=
  match getConnectionId gr tail head false with
  | (g1, Except.error e) => (g1, Except.error e)
  | (g1, Except.ok conn) =>
    match g1.nodes.get? conn with
    | none => (g1, Except.error GraphError.indexOutOfRange)
    | some t =>
      (g1, Except.ok (if t = CT_DIRECTED ∧ tail > head then CT_DIRECTED_REVERSED else t))

/-- `ConnectionsCnt`. -/
def ConnectionsCnt (gr : MixedMatrix) : Int := gr.arcsCnt + gr.edgesCnt

/-- A `Connection` (tail/head pair), as used by the arcs filter. -/
structure Connection where
  Tail : NodeId
  Head : NodeId
deriving DecidableEq, Repr

/-- `DirectedGraphArcsFilter`: the wrapped reader is abstracted away; the
iteration model below takes the wrapped reader's produced sequence as an
explicit list. -/
structure DirectedGraphArcsFilter where
  arcs : List Connection
deriving DecidableEq, Repr

/-- Inner loop of `DirectedGraphArcsFilter.ConnectionsIter` for one incoming
connection: `for _, filteringConnection := range filter.arcs` whose body is
`if match { continue }` — both the match branch (`continue`) and the
fall-through advance to the next filtering arc, and no branch sends the
connection to the output channel, so the loop emits nothing. -/
def filterConnIterInner (arcs : List Connection) (conn : Connection) : List Connection :=
  match arcs with
  | [] => []
  | f :: rest =>
    if f.Head = conn.Head ∧ f.Tail = conn.Tail then
      filterConnIterInner rest conn
    else
      filterConnIterInner rest conn

/-- `DirectedGraphArcsFilter.ConnectionsIter`, with the wrapped reader's
output given as `wrapped`: for each incoming connection the inner loop runs
and contributes whatever it emits (which is nothing — the source contains no
send statement in this function besides `close`). -/
def ConnectionsIterFilter (filter : DirectedGraphArcsFilter) (wrapped : List Connection) :
    List Connection :=
  match wrapped with
  | [] => []
  | conn :: rest => filterConnIterInner filter.arcs conn ++ ConnectionsIterFilter filter rest

/-! ### Arithmetic of the packed triangular slot formula -/

/-- Row 0 of the packing: `connSlot size 0 hi = hi - 1`. -/
lemma connSlot_zero (s hi : Nat) : connSlot s 0 hi = hi - 1 := by
  simp [connSlot]

/-- Peeling the first row: for a pair not in row 0, the slot is `s` plus the
slot of the shifted pair in the matrix of the next smaller capacity. -/
lemma connSlot_succ (s m n : Nat) (hmn : m < n) (hns : n < s) :
    connSlot (s + 1) (m + 1) (n + 1) = s + connSlot s m n := by
  obtain ⟨t, rfl⟩ : ∃ t, s = t + 1 := ⟨s - 1, by omega⟩
  unfold connSlot
  obtain ⟨k, hk⟩ := Nat.even_mul_succ_self m
  obtain ⟨j, hj⟩ := Nat.even_mul_succ_self (m + 1)
  have e1 : (m + 1) * (t + 1 + 1 - 1) = m * t + m + t + 1 := by
    show (m + 1) * (t + 1) = m * t + m + t + 1
    ring
  have e2 : m * (t + 1 - 1) = m * t := by
    show m * t = m * t
    rfl
  have e4 : (m + 1) * (m + 1 + 1) = m * (m + 1) + 2 * m + 2 := by ring
  have e5 : m * (m + 1) ≤ m * (t + 1) := Nat.mul_le_mul_left m (by omega)
  have e6 : m * (t + 1) = m * t + m := by ring
  rw [e1, e2]
  omega

/-- The slot index of every valid pair lies below `size*(size-1)/2`. -/
lemma connSlot_lt (size lo hi : Nat) (h1 : lo < hi) (h2 : hi < size) :
    connSlot size lo hi < size * (size - 1) / 2 := by
  induction size generalizing lo hi with
  | zero => omega
  | succ s IH =>
    show connSlot (s + 1) lo hi < (s + 1) * s / 2
    cases lo with
    | zero =>
      rw [connSlot_zero]
      have hb : (s + 1) * s = s * s + s := by ring
      have hss : s ≤ s * s := by
        rcases Nat.eq_zero_or_pos s with h | h
        · omega
        · exact Nat.le_mul_of_pos_left s h
      omega
    | succ m =>
      cases hi with
      | zero => omega
      | succ n =>
        rw [connSlot_succ s m n (by omega) (by omega)]
        have hx := IH m n (by omega) (by omega)
        have hb : (s + 1) * s = s * (s - 1) + 2 * s := by
          cases s with
          | zero => decide
          | succ t =>
            show (t + 2) * (t + 1) = (t + 1) * t + 2 * (t + 1)
            ring
        omega

/-- Distinct valid pairs receive distinct slots. -/
lemma connSlot_inj (size lo hi lo' hi' : Nat) (h1 : lo < hi) (h2 : hi < size)
    (h3 : lo' < hi') (h4 : hi' < size)
    (heq : connSlot size lo hi = connSlot size lo' hi') :
    lo = lo' ∧ hi = hi' := by
  induction size generalizing lo hi lo' hi' with
  | zero => omega
  | succ s IH =>
    cases lo with
    | zero =>
      cases lo' with
      | zero =>
        rw [connSlot_zero, connSlot_zero] at heq
        omega
      | succ m' =>
        cases hi' with
        | zero => omega
        | succ n' =>
          rw [connSlot_zero, connSlot_succ s m' n' (by omega) (by omega)] at heq
          omega
    | succ m =>
      cases hi with
      | zero => omega
      | succ n =>
        cases lo' with
        | zero =>
          rw [connSlot_succ s m n (by omega) (by omega), connSlot_zero] at heq
          omega
        | succ m' =>
          cases hi' with
          | zero => omega
          | succ n' =>
            rw [connSlot_succ s m n (by omega) (by omega),
                connSlot_succ s m' n' (by omega) (by omega)] at heq
            have hx := IH m n m' n' (by omega) (by omega) (by omega) (by omega) (by omega)
            omega

/-- Every index below `size*(size-1)/2` is the slot of some valid pair. -/
lemma connSlot_surj (size k : Nat) (hk : k < size * (size - 1) / 2) :
    ∃ lo hi, lo < hi ∧ hi < size ∧ connSlot size lo hi = k := by
  induction size generalizing k with
  | zero => simp at hk
  | succ s IH =>
    by_cases hks : k < s
    · refine ⟨0, k + 1, by omega, by omega, ?_⟩
      rw [connSlot_zero]
      omega
    · have hb : (s + 1) * (s + 1 - 1) = s * (s - 1) + 2 * s := by
        cases s with
        | zero => decide
        | succ t =>
          show (t + 2) * (t + 1) = (t + 1) * t + 2 * (t + 1)
          ring
      have hk' : k - s < s * (s - 1) / 2 := by omega
      obtain ⟨lo, hi, hlh, hhs, hcs⟩ := IH (k - s) hk'
      refine ⟨lo + 1, hi + 1, by omega, by omega, ?_⟩
      rw [connSlot_succ s lo hi hlh hhs, hcs]
      omega

/-! ### List helpers -/

lemma lget_lt {α : Type} {l : List α} {i : Nat} {y : α} (h : l.get? i = some y) :
    i < l.length := by
  induction l generalizing i with
  | nil => simp at h
  | cons a as ih =>
    cases i with
    | zero => simp
    | succ j =>
      simp only [List.get?_cons_succ] at h
      have := ih h
      simp only [List.length_cons]
      omega

lemma lget_set_self {α : Type} (l : List α) (i : Nat) (x : α) (h : i < l.length) :
    (l.set i x).get? i = some x := by
  induction l generalizing i with
  | nil => simp at h
  | cons a as ih =>
    cases i with
    | zero => rfl
    | succ j =>
      simp only [List.set_cons_succ, List.get?_cons_succ]
      exact ih j (by simp at h; omega)

lemma countP_set_incr {α : Type} (p : α → Bool) (l : List α) (i : Nat) (x y : α)
    (h : l.get? i = some y) (hy : p y = false) (hx : p x = true) :
    (l.set i x).countP p = l.countP p + 1 := by
  induction l generalizing i with
  | nil => simp at h
  | cons a as ih =>
    cases i with
    | zero =>
      simp only [List.get?_cons_zero] at h
      injection h with h'
      subst h'
      simp [List.countP_cons, hx, hy]
    | succ j =>
      simp only [List.get?_cons_succ] at h
      simp only [List.set_cons_succ, List.countP_cons, ih j h]
      omega

lemma countP_set_decr {α : Type} (p : α → Bool) (l : List α) (i : Nat) (x y : α)
    (h : l.get? i = some y) (hy : p y = true) (hx : p x = false) :
    (l.set i x).countP p + 1 = l.countP p := by
  induction l generalizing i with
  | nil => simp at h
  | cons a as ih =>
    cases i with
    | zero =>
      simp only [List.get?_cons_zero] at h
      injection h with h'
      subst h'
      simp [List.countP_cons, hx, hy]
    | succ j =>
      simp only [List.get?_cons_succ] at h
      simp only [List.set_cons_succ, List.countP_cons, ← ih j h]
      omega

lemma countP_set_congr {α : Type} (p : α → Bool) (l : List α) (i : Nat) (x y : α)
    (h : l.get? i = some y) (hxy : p x = p y) :
    (l.set i x).countP p = l.countP p := by
  induction l generalizing i with
  | nil => simp at h
  | cons a as ih =>
    cases i with
    | zero =>
      simp only [List.get?_cons_zero] at h
      injection h with h'
      subst h'
      simp [List.countP_cons, hxy]
    | succ j =>
      simp only [List.get?_cons_succ] at h
      simp only [List.set_cons_succ, List.countP_cons, ih j h]

/-! ### Structural lemmas about the shared indexing routine -/

lemma gcidInsert_preserve (gr : MixedMatrix) (n1 n2 : VertexId) (o1 o2 : Option Nat) :
    ((gcidInsert gr n1 n2 o1 o2).1).nodes = gr.nodes ∧
    ((gcidInsert gr n1 n2 o1 o2).1).size = gr.size ∧
    ((gcidInsert gr n1 n2 o1 o2).1).edgesCnt = gr.edgesCnt ∧
    ((gcidInsert gr n1 n2 o1 o2).1).arcsCnt = gr.arcsCnt := by
  cases o1 <;> cases o2 <;> simp [gcidInsert]

/-- `getConnectionId` never touches the slot array, the capacity or the two
counters — only the vertex map. -/
lemma gcid_preserve (gr : MixedMatrix) (n1 n2 : VertexId) (c : Bool) :
    ((getConnectionId gr n1 n2 c).1).nodes = gr.nodes ∧
    ((getConnectionId gr n1 n2 c).1).size = gr.size ∧
    ((getConnectionId gr n1 n2 c).1).edgesCnt = gr.edgesCnt ∧
    ((getConnectionId gr n1 n2 c).1).arcsCnt = gr.arcsCnt := by
  by_cases h : n1 = n2
  · simp [getConnectionId, h]
  · rcases h1 : gr.VertexIds.lookup n1 with _ | i1 <;>
      rcases h2 : gr.VertexIds.lookup n2 with _ | i2 <;>
      cases c <;>
      simp [getConnectionId, gcidCreate, h, h1, h2] <;>
      split <;>
      simp [gcidInsert_preserve]

/-- With `create = false` the routine returns the state unchanged. -/
lemma gcid_false_state (gr : MixedMatrix) (n1 n2 : VertexId) :
    (getConnectionId gr n1 n2 false).1 = gr := by
  by_cases h : n1 = n2
  · simp [getConnectionId, h]
  · rcases h1 : gr.VertexIds.lookup n1 with _ | i1 <;>
      rcases h2 : gr.VertexIds.lookup n2 with _ | i2 <;>
      simp [getConnectionId, h, h1, h2]

/-- With `create = false` and both nodes mapped, the routine returns the
canonical slot of the pair. -/
lemma gcid_false_ok (gr : MixedMatrix) (n1 n2 : VertexId) (i1 i2 : Nat)
    (hne : n1 ≠ n2) (h1 : gr.VertexIds.lookup n1 = some i1)
    (h2 : gr.VertexIds.lookup n2 = some i2) :
    getConnectionId gr n1 n2 false =
      (gr, Except.ok (connSlot gr.size (min i1 i2) (max i1 i2))) := by
  simp [getConnectionId, hne, h1, h2]

/-- With `create = false` and a missing node, the routine fails and returns
the state unchanged. -/
lemma gcid_false_error (gr : MixedMatrix) (n1 n2 : VertexId) (hne : n1 ≠ n2)
    (hmiss : gr.VertexIds.lookup n1 = none ∨ gr.VertexIds.lookup n2 = none) :
    ∃ e, getConnectionId gr n1 n2 false = (gr, Except.error e) := by
  rcases h1 : gr.VertexIds.lookup n1 with _ | i1
  · exact ⟨GraphError.firstNodeNotExist, by simp [getConnectionId, hne, h1]⟩
  · rcases h2 : gr.VertexIds.lookup n2 with _ | i2
    · exact ⟨GraphError.secondNodeNotExist, by simp [getConnectionId, hne, h1, h2]⟩
    · simp [h1, h2] at hmiss

/-- A successful `create = true` call leaves both nodes mapped in the
returned state, changes nothing besides the vertex map, and computes the
canonical slot of the pair's internal indices. -/
lemma gcid_true_ok (gr g1 : MixedMatrix) (n1 n2 : VertexId) (conn : Nat)
    (h : getConnectionId gr n1 n2 true = (g1, Except.ok conn)) :
    n1 ≠ n2 ∧ g1.size = gr.size ∧ g1.nodes = gr.nodes ∧
    g1.edgesCnt = gr.edgesCnt ∧ g1.arcsCnt = gr.arcsCnt ∧
    ∃ i1 i2, g1.VertexIds.lookup n1 = some i1 ∧ g1.VertexIds.lookup n2 = some i2 ∧
      conn = connSlot gr.size (min i1 i2) (max i1 i2) := by
  by_cases hne : n1 = n2
  · simp [getConnectionId, hne] at h
  · have hne12 : (n1 == n2) = false := beq_eq_false_iff_ne.mpr hne
    have hne21 : (n2 == n1) = false := beq_eq_false_iff_ne.mpr (Ne.symm hne)
    rcases h1 : gr.VertexIds.lookup n1 with _ | i1 <;>
      rcases h2 : gr.VertexIds.lookup n2 with _ | i2
    · -- both missing
      simp [getConnectionId, gcidCreate, gcidInsert, hne, h1, h2] at h
      split at h
      · simp at h
      · rw [Prod.mk.injEq] at h
        obtain ⟨hg, hc⟩ := h
        injection hc with hc
        subst hg
        refine ⟨hne, rfl, rfl, rfl, rfl,
          gr.VertexIds.length, gr.VertexIds.length + 1, ?_, ?_, ?_⟩
        · simp [List.lookup, hne12]
        · simp [List.lookup]
        · rw [← hc, show min gr.VertexIds.length (gr.VertexIds.length + 1) =
                gr.VertexIds.length from by omega,
              show max gr.VertexIds.length (gr.VertexIds.length + 1) =
                gr.VertexIds.length + 1 from by omega]
    · -- first missing, second mapped
      simp [getConnectionId, gcidCreate, gcidInsert, hne, h1, h2] at h
      split at h
      · simp at h
      · rw [Prod.mk.injEq] at h
        obtain ⟨hg, hc⟩ := h
        injection hc with hc
        subst hg
        refine ⟨hne, rfl, rfl, rfl, rfl, gr.VertexIds.length, i2, ?_, ?_, ?_⟩
        · simp [List.lookup]
        · simp [List.lookup, hne21, h2]
        · rw [← hc]
    · -- first mapped, second missing
      simp [getConnectionId, gcidCreate, gcidInsert, hne, h1, h2] at h
      split at h
      · simp at h
      · rw [Prod.mk.injEq] at h
        obtain ⟨hg, hc⟩ := h
        injection hc with hc
        subst hg
        refine ⟨hne, rfl, rfl, rfl, rfl, i1, gr.VertexIds.length, ?_, ?_, ?_⟩
        · simp [List.lookup, hne12, h1]
        · simp [List.lookup]
        · rw [← hc]
    · -- both mapped
      simp only [getConnectionId, hne, if_false, h1, h2, Prod.mk.injEq,
        Except.ok.injEq] at h
      obtain ⟨hg, hc⟩ := h
      subst hg
      exact ⟨hne, rfl, rfl, rfl, rfl, i1, i2, h1, h2, hc.symm⟩

/-- Claim C1: for every capacity `size > 0`, the packed slot formula
`connSlot size lo hi = lo*(size-1) + hi - 1 - lo*(lo+1)/2` is a bijection
between the pairs `0 ≤ lo < hi < size` and the interval
`[0, size*(size-1)/2)`: it is injective over all valid pairs, lands inside
the allocated array, and hits every allocated slot. -/
theorem connSlot_bijection (size : Nat) (_hpos : 0 < size) :
    (∀ lo < size, ∀ hi < size, ∀ lo' < size, ∀ hi' < size,
        lo < hi → lo' < hi' → connSlot size lo hi = connSlot size lo' hi' →
        lo = lo' ∧ hi = hi') ∧
    (∀ lo < size, ∀ hi < size, lo < hi → connSlot size lo hi < size * (size - 1) / 2) ∧
    (∀ k < size * (size - 1) / 2, ∃ lo < size, ∃ hi < size,
        lo < hi ∧ connSlot size lo hi = k) := by
  refine ⟨?_, ?_, ?_⟩
  · intro lo _ hi hhi lo' _ hi' hhi' h1 h2 heq
    exact connSlot_inj size lo hi lo' hi' h1 hhi h2 hhi' heq
  · intro lo _ hi hhi h
    exact connSlot_lt size lo hi h hhi
  · intro k hk
    obtain ⟨lo, hi, a, b, c⟩ := connSlot_surj size k hk
    exact ⟨lo, by omega, hi, b, a, c⟩

/-- Witness for C1: the bijection statement instantiated at capacity 3. -/
theorem connSlot_bijection_witness :
    0 < 3 ∧
    ((∀ lo < 3, ∀ hi < 3, ∀ lo' < 3, ∀ hi' < 3,
        lo < hi → lo' < hi' → connSlot 3 lo hi = connSlot 3 lo' hi' →
        lo = lo' ∧ hi = hi') ∧
     (∀ lo < 3, ∀ hi < 3, lo < hi → connSlot 3 lo hi < 3 * (3 - 1) / 2) ∧
     (∀ k < 3 * (3 - 1) / 2, ∃ lo < 3, ∃ hi < 3,
        lo < hi ∧ connSlot 3 lo hi = k)) :=
  ⟨by decide, connSlot_bijection 3 (by decide)⟩

/-! ### Anatomy of a successful AddArc -/

/-- A successful `AddArc` call factors into a successful indexing call on an
empty slot followed by writing the direction derived from `tail < head`. -/
lemma addArc_success_spec (gr g' : MixedMatrix) (tail head : VertexId)
    (h : AddArc gr tail head = (g', none)) :
    ∃ g1 conn, getConnectionId gr tail head true = (g1, Except.ok conn) ∧
      g1.nodes.get? conn = some CT_NONE ∧
      g' = { g1 with
              nodes := g1.nodes.set conn
                (if tail < head then CT_DIRECTED else CT_DIRECTED_REVERSED),
              arcsCnt := g1.arcsCnt + 1 } := by
  unfold AddArc at h
  split at h
  next g1 e heq => simp at h
  next g1 conn heq =>
    split at h
    next hn => simp at h
    next t hn =>
      split at h
      next ht => simp at h
      next ht =>
        have ht' : t = CT_NONE := by simpa using ht
        subst ht'
        simp at h
        exact ⟨g1, conn, heq, hn, h.symm⟩

/-- Claim C2 (amended): after every successful `addArc(tail, head)`, the slot
for the pair holds `CT_DIRECTED` exactly when `tail`'s *vertex-id value* is
smaller than `head`'s, and `CT_DIRECTED_REVERSED` otherwise — direction is
encoded relative to vertex-id value order, not internal index order. -/
theorem addArc_slot_by_id_value (gr g' : MixedMatrix) (tail head : VertexId)
    (h : AddArc gr tail head = (g', none)) :
    ∃ conn, getConnectionId g' tail head false = (g', Except.ok conn) ∧
      g'.nodes.get? conn =
        some (if tail < head then CT_DIRECTED else CT_DIRECTED_REVERSED) := by
  obtain ⟨g1, conn, hg, hn, hgrec⟩ := addArc_success_spec gr g' tail head h
  obtain ⟨hne, hsz, hnd, _, _, i1, i2, l1, l2, hcs⟩ := gcid_true_ok gr g1 tail head conn hg
  have hlen : conn < g1.nodes.length := lget_lt hn
  have hget := lget_set_self g1.nodes conn
    (if tail < head then CT_DIRECTED else CT_DIRECTED_REVERSED) hlen
  have hsz2 : g'.size = g1.size := by rw [hgrec]
  have hvx : g'.VertexIds = g1.VertexIds := by rw [hgrec]
  have hnodes : g'.nodes = g1.nodes.set conn
      (if tail < head then CT_DIRECTED else CT_DIRECTED_REVERSED) := by rw [hgrec]
  have l1' : g'.VertexIds.lookup tail = some i1 := by rw [hvx]; exact l1
  have l2' : g'.VertexIds.lookup head = some i2 := by rw [hvx]; exact l2
  have hslot : connSlot g'.size (min i1 i2) (max i1 i2) = conn := by
    rw [hsz2, hsz, ← hcs]
  refine ⟨conn, ?_, ?_⟩
  · have e1 := gcid_false_ok g' tail head i1 i2 hne l1' l2'
    rw [hslot] at e1
    exact e1
  · rw [hnodes]
    exact hget

/-- Witness for the amended C2 at a concrete successful call. -/
theorem addArc_slot_by_id_value_witness :
    AddArc (NewMixedMatrix 2) 1 2 = ((AddArc (NewMixedMatrix 2) 1 2).1, none) ∧
    (∃ conn, getConnectionId (AddArc (NewMixedMatrix 2) 1 2).1 1 2 false =
        ((AddArc (NewMixedMatrix 2) 1 2).1, Except.ok conn) ∧
      (AddArc (NewMixedMatrix 2) 1 2).1.nodes.get? conn =
        some (if (1 : VertexId) < 2 then CT_DIRECTED else CT_DIRECTED_REVERSED)) :=
  ⟨rfl, addArc_slot_by_id_value (NewMixedMatrix 2) (AddArc (NewMixedMatrix 2) 1 2).1 1 2 rfl⟩

/-- Counterexample to claim C2 as stated: on a capacity-2 store where vertex
5 was added before vertex 3 (so 5 has internal index 0 and 3 has internal
index 1), `addArc(3, 5)` succeeds with the tail's internal index (1) greater
than the head's (0); the claim then demands the slot hold
`CT_DIRECTED_REVERSED`, but the source compares the vertex-id values
(`3 < 5`) and stores `CT_DIRECTED`. -/
theorem addArc_internal_index_counterexample :
    (AddArc ((AddNode ((AddNode (NewMixedMatrix 2) 5).1) 3).1) 3 5).2 = none ∧
    (AddArc ((AddNode ((AddNode (NewMixedMatrix 2) 5).1) 3).1) 3 5).1.VertexIds.lookup 3
      = some 1 ∧
    (AddArc ((AddNode ((AddNode (NewMixedMatrix 2) 5).1) 3).1) 3 5).1.VertexIds.lookup 5
      = some 0 ∧
    getConnectionId (AddArc ((AddNode ((AddNode (NewMixedMatrix 2) 5).1) 3).1) 3 5).1 3 5 false
      = ((AddArc ((AddNode ((AddNode (NewMixedMatrix 2) 5).1) 3).1) 3 5).1, Except.ok 0) ∧
    (AddArc ((AddNode ((AddNode (NewMixedMatrix 2) 5).1) 3).1) 3 5).1.nodes.get? 0
      = some CT_DIRECTED ∧
    CT_DIRECTED ≠ CT_DIRECTED_REVERSED :=
  ⟨rfl, rfl, rfl, rfl, rfl, by decide⟩

/-- Claim C7: after a successful `addArc(tail, head)` the query
`hasArc(tail, head)` is true and `hasArc(head, tail)` is false, whatever the
ids and internal indices involved. -/
theorem addArc_checkArc_asymmetric (gr g' : MixedMatrix) (tail head : VertexId)
    (h : AddArc gr tail head = (g', none)) :
    CheckArc g' tail head = (g', Except.ok true) ∧
    CheckArc g' head tail = (g', Except.ok false) := by
  obtain ⟨g1, conn, hg, hn, hgrec⟩ := addArc_success_spec gr g' tail head h
  obtain ⟨hne, hsz, hnd, _, _, i1, i2, l1, l2, hcs⟩ := gcid_true_ok gr g1 tail head conn hg
  have hlen : conn < g1.nodes.length := lget_lt hn
  have hget := lget_set_self g1.nodes conn
    (if tail < head then CT_DIRECTED else CT_DIRECTED_REVERSED) hlen
  have hsz2 : g'.size = g1.size := by rw [hgrec]
  have hvx : g'.VertexIds = g1.VertexIds := by rw [hgrec]
  have l1' : g'.VertexIds.lookup tail = some i1 := by rw [hvx]; exact l1
  have l2' : g'.VertexIds.lookup head = some i2 := by rw [hvx]; exact l2
  have hget' : g'.nodes.get? conn =
      some (if tail < head then CT_DIRECTED else CT_DIRECTED_REVERSED) := by
    rw [hgrec]
    exact hget
  have hslot : connSlot g'.size (min i1 i2) (max i1 i2) = conn := by
    rw [hsz2, hsz, ← hcs]
  have hslot' : connSlot g'.size (min i2 i1) (max i2 i1) = conn := by
    rw [min_comm, max_comm]
    exact hslot
  have e1 := gcid_false_ok g' tail head i1 i2 hne l1' l2'
  rw [hslot] at e1
  have e2 := gcid_false_ok g' head tail i2 i1 (Ne.symm hne) l2' l1'
  rw [hslot'] at e2
  constructor
  · unfold CheckArc
    rw [e1]
    simp only [hget']
    simp
  · unfold CheckArc
    rw [e2]
    simp only [hget']
    by_cases hth : tail < head
    · have hnlt : ¬ head < tail := Nat.lt_asymm hth
      simp [hth, hnlt]
    · have hlt : head < tail :=
        Nat.lt_of_le_of_ne (Nat.le_of_not_lt hth) (Ne.symm hne)
      simp [hth, hlt]

/-- Witness for C7 at a concrete successful call. -/
theorem addArc_checkArc_asymmetric_witness :
    AddArc (NewMixedMatrix 2) 1 2 = ((AddArc (NewMixedMatrix 2) 1 2).1, none) ∧
    CheckArc (AddArc (NewMixedMatrix 2) 1 2).1 1 2 =
      ((AddArc (NewMixedMatrix 2) 1 2).1, Except.ok true) ∧
    CheckArc (AddArc (NewMixedMatrix 2) 1 2).1 2 1 =
      ((AddArc (NewMixedMatrix 2) 1 2).1, Except.ok false) :=
  ⟨rfl, addArc_checkArc_asymmetric (NewMixedMatrix 2) (AddArc (NewMixedMatrix 2) 1 2).1 1 2 rfl⟩

/-- Claim C9: `hasEdge(u, u)` returns `false` without error, while every
other connection operation on two equal ids fails through the shared
indexing routine's equal-ids check, so no loop can ever be created or
reported. -/
theorem equal_ids_no_loops (gr : MixedMatrix) (u : VertexId) :
    CheckEdge gr u u = (gr, Except.ok false) ∧
    AddEdge gr u u = (gr, some GraphError.equalNodes) ∧
    RemoveEdge gr u u = (gr, some GraphError.equalNodes) ∧
    AddArc gr u u = (gr, some GraphError.equalNodes) ∧
    RemoveArc gr u u = (gr, some GraphError.equalNodes) ∧
    CheckArc gr u u = (gr, Except.error GraphError.equalNodes) ∧
    CheckEdgeType gr u u = (gr, Except.error GraphError.equalNodes) := by
  refine ⟨?_, ?_, ?_, ?_, ?_, ?_, ?_⟩ <;>
    simp [CheckEdge, AddEdge, RemoveEdge, AddArc, RemoveArc, CheckArc, CheckEdgeType,
      getConnectionId]

/-- Claim C10: with distinct ids of which at least one is unmapped, the three
query operations fail (the Go code panics) instead of answering, and they
leave the store unchanged — queries never implicitly create vertices. -/
theorem queries_fail_on_unmapped (gr : MixedMatrix) (u v : VertexId) (hne : u ≠ v)
    (hmiss : gr.VertexIds.lookup u = none ∨ gr.VertexIds.lookup v = none) :
    (∃ e, CheckEdge gr u v = (gr, Except.error e)) ∧
    (∃ e, CheckArc gr u v = (gr, Except.error e)) ∧
    (∃ e, CheckEdgeType gr u v = (gr, Except.error e)) := by
  obtain ⟨e, he⟩ := gcid_false_error gr u v hne hmiss
  refine ⟨⟨e, ?_⟩, ⟨e, ?_⟩, ⟨e, ?_⟩⟩
  · unfold CheckEdge
    rw [if_neg hne, he]
  · unfold CheckArc
    rw [he]
  · unfold CheckEdgeType
    rw [he]

/-- Witness for C10 on a fresh capacity-2 store and two unmapped ids. -/
theorem queries_fail_on_unmapped_witness :
    ((1 : VertexId) ≠ 2 ∧
     ((NewMixedMatrix 2).VertexIds.lookup 1 = none ∨
      (NewMixedMatrix 2).VertexIds.lookup 2 = none)) ∧
    ((∃ e, CheckEdge (NewMixedMatrix 2) 1 2 = (NewMixedMatrix 2, Except.error e)) ∧
     (∃ e, CheckArc (NewMixedMatrix 2) 1 2 = (NewMixedMatrix 2, Except.error e)) ∧
     (∃ e, CheckEdgeType (NewMixedMatrix 2) 1 2 = (NewMixedMatrix 2, Except.error e))) :=
  ⟨⟨by decide, Or.inl rfl⟩,
    queries_fail_on_unmapped (NewMixedMatrix 2) 1 2 (by decide) (Or.inl rfl)⟩

/-! ### Code-bug evaluations -/

/-- Claim C3 fails on the code: in the capacity-4 scenario (vertices 1, 2,
3, 4 added in that order, then `addArc(3, 1)` — the spec's `addArc(C, A)`),
the call `connectionType(3, 1)` does not report the arc as directed-forward
from the caller's arguments: the stored `CT_DIRECTED_REVERSED` is returned
unchanged (`CheckEdgeType` only flips a stored `CT_DIRECTED` when
`tail > head`, never the reversed case), and the opposite orientation
`connectionType(1, 3)` receives the very same answer, so the result cannot
be caller-relative. -/
theorem checkEdgeType_reversed_not_caller_relative :
    (AddArc ((AddNode ((AddNode ((AddNode ((AddNode (NewMixedMatrix 4) 1).1) 2).1) 3).1) 4).1)
        3 1).2 = none ∧
    (CheckEdgeType
        (AddArc ((AddNode ((AddNode ((AddNode ((AddNode (NewMixedMatrix 4) 1).1) 2).1) 3).1)
            4).1) 3 1).1 3 1).2 = Except.ok CT_DIRECTED_REVERSED ∧
    (CheckEdgeType
        (AddArc ((AddNode ((AddNode ((AddNode ((AddNode (NewMixedMatrix 4) 1).1) 2).1) 3).1)
            4).1) 3 1).1 1 3).2 = Except.ok CT_DIRECTED_REVERSED ∧
    CT_DIRECTED_REVERSED ≠ CT_DIRECTED :=
  ⟨rfl, rfl, rfl, by decide⟩

/-- Claim C4 fails on the code: on a capacity-2 store holding one vertex (7),
`addEdge(8, 9)` must create two vertices with only one slot of capacity
left, so the claim demands a `CapacityExceeded` failure with no state
change.  Instead the dead `node1Exist && node2Exist` guard skips the
two-node capacity check, both vertices are created (vertex map grows from 1
to 3 entries, exceeding the capacity 2), and the call then fails on an
out-of-range slot index. -/
theorem getConnectionId_capacity_check_bug :
    (AddEdge ((AddNode (NewMixedMatrix 2) 7).1) 8 9).2 = some GraphError.indexOutOfRange ∧
    (AddEdge ((AddNode (NewMixedMatrix 2) 7).1) 8 9).2 ≠ some GraphError.notEnoughSpaceTwo ∧
    ((AddNode (NewMixedMatrix 2) 7).1).VertexIds.length = 1 ∧
    (AddEdge ((AddNode (NewMixedMatrix 2) 7).1) 8 9).1.VertexIds.length = 3 ∧
    (AddEdge ((AddNode (NewMixedMatrix 2) 7).1) 8 9).1.size = 2 ∧
    (AddEdge ((AddNode (NewMixedMatrix 2) 7).1) 8 9).1.VertexIds.lookup 8 = some 1 ∧
    (AddEdge ((AddNode (NewMixedMatrix 2) 7).1) 8 9).1.VertexIds.lookup 9 = some 2 :=
  ⟨rfl, by decide, rfl, rfl, rfl, rfl, rfl⟩

/-- Claim C5 fails on the code: `RemoveEdge` and `RemoveArc` call the shared
indexing routine with creation *allowed*, so removing a non-existent
connection between unmapped ids on a fresh capacity-2 store does fail
(`edgeNotExists` / `arcNotExists`), but it creates both vertices as a side
effect: the vertex map grows from 0 to 2 entries instead of staying
unchanged. -/
theorem removeEdge_creates_vertices_bug :
    (RemoveEdge (NewMixedMatrix 2) 1 2).2 = some GraphError.edgeNotExists ∧
    (NewMixedMatrix 2).VertexIds.length = 0 ∧
    (RemoveEdge (NewMixedMatrix 2) 1 2).1.VertexIds.length = 2 ∧
    (RemoveEdge (NewMixedMatrix 2) 1 2).1.VertexIds.lookup 1 = some 0 ∧
    (RemoveEdge (NewMixedMatrix 2) 1 2).1.VertexIds.lookup 2 = some 1 ∧
    (RemoveArc (NewMixedMatrix 2) 1 2).2 = some GraphError.arcNotExists ∧
    (RemoveArc (NewMixedMatrix 2) 1 2).1.VertexIds.length = 2 :=
  ⟨rfl, rfl, rfl, rfl, rfl, rfl, rfl⟩

/-- The inner filtering loop of the filter's `ConnectionsIter` emits
nothing: both branches only advance the loop. -/
lemma filterConnIterInner_eq_nil (arcs : List Connection) (conn : Connection) :
    filterConnIterInner arcs conn = [] := by
  induction arcs with
  | nil => rfl
  | cons f rest ih =>
    unfold filterConnIterInner
    split <;> exact ih

/-- The filter's connection iteration is empty for every wrapped output. -/
lemma connectionsIterFilter_eq_nil (filter : DirectedGraphArcsFilter)
    (wrapped : List Connection) :
    ConnectionsIterFilter filter wrapped = [] := by
  induction wrapped with
  | nil => rfl
  | cons c rest ih =>
    unfold ConnectionsIterFilter
    rw [filterConnIterInner_eq_nil, ih]
    rfl

/-- Claim C8 fails on the code: the loop body of
`DirectedGraphArcsFilter.ConnectionsIter` contains no send statement (the
inner `continue` merely advances the filtering loop), so the iteration
produces nothing at all — in particular, with an empty exclusion list over a
wrapped reader producing the single connection (1, 2), that connection is
not produced, contradicting the claim that every non-excluded wrapped
connection is produced. -/
theorem arcsFilter_connectionsIter_empty_bug :
    ConnectionsIterFilter ⟨[]⟩ [⟨1, 2⟩] = [] ∧
    ConnectionsIterFilter ⟨[]⟩ [⟨1, 2⟩] ≠ [⟨1, 2⟩] ∧
    ConnectionsIterFilter ⟨[⟨3, 4⟩]⟩ [⟨1, 2⟩] = [] ∧
    (∀ filter wrapped, ConnectionsIterFilter filter wrapped = []) :=
  ⟨rfl, by decide, rfl, fun filter wrapped => connectionsIterFilter_eq_nil filter wrapped⟩

/-! ### The counting invariant (claim C6) -/

/-- Number of slots not in the `CT_NONE` state. -/
def countNonNone (l : List MixedConnectionType) : Nat :=
  l.countP (fun t => decide (t ≠ CT_NONE))

/-- Number of slots holding an undirected edge. -/
def countUndirected (l : List MixedConnectionType) : Nat :=
  l.countP (fun t => decide (t = CT_UNDIRECTED))

/-- Number of slots holding a directed arc (either orientation). -/
def countDirected (l : List MixedConnectionType) : Nat :=
  l.countP (fun t => decide (t = CT_DIRECTED ∨ t = CT_DIRECTED_REVERSED))

lemma countNonNone_split (l : List MixedConnectionType) :
    countNonNone l = countUndirected l + countDirected l := by
  induction l with
  | nil => rfl
  | cons a as ih =>
    simp only [countNonNone, countUndirected, countDirected] at ih ⊢
    cases a <;> simp [List.countP_cons] at ih ⊢ <;> omega

lemma countP_replicate_false {α : Type} (p : α → Bool) (n : Nat) (a : α)
    (ha : p a = false) : (List.replicate n a).countP p = 0 := by
  induction n with
  | zero => rfl
  | succ m ih => simp [List.replicate_succ, List.countP_cons, ha, ih]

/-- The per-kind counter invariant: `edgesCnt` counts the undirected slots
and `arcsCnt` counts the directed slots. -/
def CountsInv (g : MixedMatrix) : Prop :=
  g.edgesCnt = (countUndirected g.nodes : Int) ∧
  g.arcsCnt = (countDirected g.nodes : Int)

/-- The stores reachable from a fresh store by the public mutating
operations, whether each call succeeds or fails (the post-state of a failed
call is retained, exactly as the Go receiver outlives a panic). -/
inductive Reachable : MixedMatrix → Prop where
  | new (n : Nat) (hn : 0 < n) : Reachable (NewMixedMatrix n)
  | addNode (g : MixedMatrix) (v : VertexId) : Reachable g → Reachable (AddNode g v).1
  | addEdge (g : MixedMatrix) (u v : VertexId) : Reachable g → Reachable (AddEdge g u v).1
  | removeEdge (g : MixedMatrix) (u v : VertexId) : Reachable g → Reachable (RemoveEdge g u v).1
  | addArc (g : MixedMatrix) (u v : VertexId) : Reachable g → Reachable (AddArc g u v).1
  | removeArc (g : MixedMatrix) (u v : VertexId) : Reachable g → Reachable (RemoveArc g u v).1

lemma cU_set_incr (l : List MixedConnectionType) (i : Nat)
    (h : l.get? i = some CT_NONE) :
    countUndirected (l.set i CT_UNDIRECTED) = countUndirected l + 1 :=
  countP_set_incr _ l i CT_UNDIRECTED CT_NONE h (by decide) (by decide)

lemma cD_set_undir_of_none (l : List MixedConnectionType) (i : Nat)
    (h : l.get? i = some CT_NONE) :
    countDirected (l.set i CT_UNDIRECTED) = countDirected l :=
  countP_set_congr _ l i CT_UNDIRECTED CT_NONE h (by decide)

lemma cU_set_decr (l : List MixedConnectionType) (i : Nat)
    (h : l.get? i = some CT_UNDIRECTED) :
    countUndirected (l.set i CT_NONE) + 1 = countUndirected l :=
  countP_set_decr _ l i CT_NONE CT_UNDIRECTED h (by decide) (by decide)

lemma cD_set_none_of_undir (l : List MixedConnectionType) (i : Nat)
    (h : l.get? i = some CT_UNDIRECTED) :
    countDirected (l.set i CT_NONE) = countDirected l :=
  countP_set_congr _ l i CT_NONE CT_UNDIRECTED h (by decide)

lemma cD_set_incr (l : List MixedConnectionType) (i : Nat) (X : MixedConnectionType)
    (hX : X = CT_DIRECTED ∨ X = CT_DIRECTED_REVERSED)
    (h : l.get? i = some CT_NONE) :
    countDirected (l.set i X) = countDirected l + 1 :=
  countP_set_incr _ l i X CT_NONE h (by decide)
    (by rcases hX with h' | h' <;> subst h' <;> decide)

lemma cU_set_dir_of_none (l : List MixedConnectionType) (i : Nat) (X : MixedConnectionType)
    (hX : X = CT_DIRECTED ∨ X = CT_DIRECTED_REVERSED)
    (h : l.get? i = some CT_NONE) :
    countUndirected (l.set i X) = countUndirected l :=
  countP_set_congr _ l i X CT_NONE h
    (by rcases hX with h' | h' <;> subst h' <;> decide)

lemma cD_set_decr (l : List MixedConnectionType) (i : Nat) (t : MixedConnectionType)
    (ht : t = CT_DIRECTED ∨ t = CT_DIRECTED_REVERSED)
    (h : l.get? i = some t) :
    countDirected (l.set i CT_NONE) + 1 = countDirected l :=
  countP_set_decr _ l i CT_NONE t h
    (by rcases ht with h' | h' <;> subst h' <;> decide) (by decide)

lemma cU_set_none_of_dir (l : List MixedConnectionType) (i : Nat) (t : MixedConnectionType)
    (ht : t = CT_DIRECTED ∨ t = CT_DIRECTED_REVERSED)
    (h : l.get? i = some t) :
    countUndirected (l.set i CT_NONE) = countUndirected l :=
  countP_set_congr _ l i CT_NONE t h
    (by rcases ht with h' | h' <;> subst h' <;> decide)

lemma countsInv_new (n : Nat) : CountsInv (NewMixedMatrix n) := by
  constructor
  · show (0 : Int) = (countUndirected (List.replicate (n * (n - 1) / 2) CT_NONE) : Int)
    rw [show countUndirected (List.replicate (n * (n - 1) / 2) CT_NONE) = 0 from
      countP_replicate_false _ _ _ (by decide)]
    simp
  · show (0 : Int) = (countDirected (List.replicate (n * (n - 1) / 2) CT_NONE) : Int)
    rw [show countDirected (List.replicate (n * (n - 1) / 2) CT_NONE) = 0 from
      countP_replicate_false _ _ _ (by decide)]
    simp

lemma countsInv_gcid (g : MixedMatrix) (n1 n2 : VertexId) (c : Bool)
    (h : CountsInv g) : CountsInv ((getConnectionId g n1 n2 c).1) := by
  obtain ⟨hn, _, he, ha⟩ := gcid_preserve g n1 n2 c
  constructor
  · rw [hn, he]
    exact h.1
  · rw [hn, ha]
    exact h.2

lemma countsInv_gcid_eq (g g1 : MixedMatrix) (n1 n2 : VertexId) (c : Bool)
    (r : Except GraphError Nat) (heq : getConnectionId g n1 n2 c = (g1, r))
    (h : CountsInv g) : CountsInv g1 := by
  have h1 := countsInv_gcid g n1 n2 c h
  rw [heq] at h1
  exact h1

lemma countsInv_addNode (g : MixedMatrix) (v : VertexId) (h : CountsInv g) :
    CountsInv (AddNode g v).1 := by
  unfold AddNode
  split
  · exact h
  · split
    · exact h
    · exact h

lemma countsInv_addEdge (g : MixedMatrix) (u v : VertexId) (h : CountsInv g) :
    CountsInv (AddEdge g u v).1 := by
  unfold AddEdge
  split
  next g1 e heq =>
    exact countsInv_gcid_eq g g1 u v true _ heq h
  next g1 conn heq =>
    have h1 : CountsInv g1 := countsInv_gcid_eq g g1 u v true _ heq h
    split
    next hn => exact h1
    next t hn =>
      split
      next ht => exact h1
      next ht =>
        have ht' : t = CT_NONE := by simpa using ht
        subst ht'
        obtain ⟨he, ha⟩ := h1
        constructor
        · show g1.edgesCnt + 1 = (countUndirected (g1.nodes.set conn CT_UNDIRECTED) : Int)
          rw [cU_set_incr g1.nodes conn hn]
          push_cast
          omega
        · show g1.arcsCnt = (countDirected (g1.nodes.set conn CT_UNDIRECTED) : Int)
          rw [cD_set_undir_of_none g1.nodes conn hn]
          exact ha

lemma countsInv_removeEdge (g : MixedMatrix) (u v : VertexId) (h : CountsInv g) :
    CountsInv (RemoveEdge g u v).1 := by
  unfold RemoveEdge
  split
  next g1 e heq =>
    exact countsInv_gcid_eq g g1 u v true _ heq h
  next g1 conn heq =>
    have h1 : CountsInv g1 := countsInv_gcid_eq g g1 u v true _ heq h
    split
    next hn => exact h1
    next t hn =>
      split
      next ht => exact h1
      next ht =>
        have ht' : t = CT_UNDIRECTED := by simpa using ht
        subst ht'
        obtain ⟨he, ha⟩ := h1
        constructor
        · show g1.edgesCnt - 1 = (countUndirected (g1.nodes.set conn CT_NONE) : Int)
          have hd := cU_set_decr g1.nodes conn hn
          omega
        · show g1.arcsCnt = (countDirected (g1.nodes.set conn CT_NONE) : Int)
          rw [cD_set_none_of_undir g1.nodes conn hn]
          exact ha

lemma countsInv_addArc (g : MixedMatrix) (u v : VertexId) (h : CountsInv g) :
    CountsInv (AddArc g u v).1 := by
  unfold AddArc
  split
  next g1 e heq =>
    exact countsInv_gcid_eq g g1 u v true _ heq h
  next g1 conn heq =>
    have h1 : CountsInv g1 := countsInv_gcid_eq g g1 u v true _ heq h
    split
    next hn => exact h1
    next t hn =>
      split
      next ht => exact h1
      next ht =>
        have ht' : t = CT_NONE := by simpa using ht
        subst ht'
        obtain ⟨he, ha⟩ := h1
        have hX : (if u < v then CT_DIRECTED else CT_DIRECTED_REVERSED) = CT_DIRECTED ∨
            (if u < v then CT_DIRECTED else CT_DIRECTED_REVERSED) = CT_DIRECTED_REVERSED := by
          split
          · exact Or.inl rfl
          · exact Or.inr rfl
        constructor
        · show g1.edgesCnt =
            (countUndirected (g1.nodes.set conn
              (if u < v then CT_DIRECTED else CT_DIRECTED_REVERSED)) : Int)
          rw [cU_set_dir_of_none g1.nodes conn _ hX hn]
          exact he
        · show g1.arcsCnt + 1 =
            (countDirected (g1.nodes.set conn
              (if u < v then CT_DIRECTED else CT_DIRECTED_REVERSED)) : Int)
          rw [cD_set_incr g1.nodes conn _ hX hn]
          push_cast
          omega

lemma countsInv_removeArc_aux (g1 : MixedMatrix) (conn : Nat) (t : MixedConnectionType)
    (htd : t = CT_DIRECTED ∨ t = CT_DIRECTED_REVERSED)
    (hn : g1.nodes.get? conn = some t) (h1 : CountsInv g1) :
    CountsInv { g1 with nodes := g1.nodes.set conn CT_NONE,
                        arcsCnt := g1.arcsCnt - 1 } := by
  obtain ⟨he, ha⟩ := h1
  constructor
  · show g1.edgesCnt = (countUndirected (g1.nodes.set conn CT_NONE) : Int)
    rw [cU_set_none_of_dir g1.nodes conn t htd hn]
    exact he
  · show g1.arcsCnt - 1 = (countDirected (g1.nodes.set conn CT_NONE) : Int)
    have hd := cD_set_decr g1.nodes conn t htd hn
    omega

lemma countsInv_removeArc (g : MixedMatrix) (u v : VertexId) (h : CountsInv g) :
    CountsInv (RemoveArc g u v).1 := by
  unfold RemoveArc
  split
  next g1 e heq =>
    exact countsInv_gcid_eq g g1 u v true _ heq h
  next g1 conn heq =>
    have h1 : CountsInv g1 := countsInv_gcid_eq g g1 u v true _ heq h
    split
    next hn => exact h1
    next t hn =>
      by_cases huv : u < v
      · rw [if_pos huv]
        split
        next ht => exact h1
        next ht =>
          have ht' : t = CT_DIRECTED := by simpa using ht
          exact countsInv_removeArc_aux g1 conn t (Or.inl ht') hn h1
      · rw [if_neg huv]
        split
        next ht => exact h1
        next ht =>
          have ht' : t = CT_DIRECTED_REVERSED := by simpa using ht
          exact countsInv_removeArc_aux g1 conn t (Or.inr ht') hn h1

lemma reachable_countsInv (g : MixedMatrix) (h : Reachable g) : CountsInv g := by
  induction h with
  | new n hn => exact countsInv_new n
  | addNode g v _ ih => exact countsInv_addNode g v ih
  | addEdge g u v _ ih => exact countsInv_addEdge g u v ih
  | removeEdge g u v _ ih => exact countsInv_removeEdge g u v ih
  | addArc g u v _ ih => exact countsInv_addArc g u v ih
  | removeArc g u v _ ih => exact countsInv_removeArc g u v ih

/-- Claim C6: in every store reachable from a fresh store by any sequence of
successful or failed public operations, `edgesCnt + arcsCnt` equals the
number of slots not in the `CT_NONE` state, and `ConnectionsCnt` returns
`EdgesCnt + ArcsCnt`. -/
theorem counts_invariant (g : MixedMatrix) (h : Reachable g) :
    g.edgesCnt + g.arcsCnt = (countNonNone g.nodes : Int) ∧
    ConnectionsCnt g = EdgesCnt g + ArcsCnt g := by
  obtain ⟨he, ha⟩ := reachable_countsInv g h
  constructor
  · rw [he, ha, countNonNone_split]
    push_cast
    ring
  · show g.arcsCnt + g.edgesCnt = g.edgesCnt + g.arcsCnt
    ring

/-- Witness for C6 on a concrete reachable store (capacity 2 after one
successful `addEdge`). -/
theorem counts_invariant_witness :
    Reachable ((AddEdge (NewMixedMatrix 2) 1 2).1) ∧
    ((AddEdge (NewMixedMatrix 2) 1 2).1.edgesCnt + (AddEdge (NewMixedMatrix 2) 1 2).1.arcsCnt
        = (countNonNone (AddEdge (NewMixedMatrix 2) 1 2).1.nodes : Int) ∧
      ConnectionsCnt (AddEdge (NewMixedMatrix 2) 1 2).1
        = EdgesCnt (AddEdge (NewMixedMatrix 2) 1 2).1
            + ArcsCnt (AddEdge (NewMixedMatrix 2) 1 2).1) :=
  ⟨Reachable.addEdge _ 1 2 (Reachable.new 2 (by decide)),
    counts_invariant _ (Reachable.addEdge _ 1 2 (Reachable.new 2 (by decide)))⟩

end GoGraph
